import Mathlib

/-!
Verification of the Thesis-RAG retrieval-and-citation pipeline.

The definitions below are a shallow embedding of the three scripts
`rag_chat_first.py`, `rag_chat_session.py` and `run_mpnet_tests.py`.
External collaborators (document loaders, the embedder, the Chroma vector
index, the Ollama language models, the wall clock) are passed in as
function parameters; everything the scripts themselves compute is
translated directly.
-/

namespace ThesisRAG

/-- Loader metadata attached to a document: the `source` entry of the
metadata dict (`none` when the loader put no such key there) and an
optional page number. -/
structure Metadata where
  source : Option String
  page : Option Nat
deriving DecidableEq

/-- A langchain `Document`: page content plus loader metadata. -/
structure Document where
  page_content : String
  metadata : Metadata
deriving DecidableEq

instance : Inhabited Document := ⟨⟨"", ⟨none, none⟩⟩⟩

/-- `page_content.replace("\x5cn", " ")` from rag_chat_first.py:65: the
pattern is the single newline character, so the call maps each newline
character of the content to one space. -/
def replaceNewlines (s : String) : String :=
  ⟨s.data.map fun c => if c = '\n' then ' ' else c⟩

/-- The accumulating loop of `context_formatting` (rag_chat_first.py:62-66):
for `index, document in enumerate(documents)` append
`"[doc" + str(index+1) + "]=" + page_content.replace("\x5cn", " ") + "\x5cn\x5cn"`
to `content`. -/
def context_formatting_go (content : String) (index : Nat) :
    List Document → String
  | [] => content
  | document :: rest =>
      context_formatting_go
        (content ++ "[doc" ++ toString (index + 1) ++ "]=" ++
          replaceNewlines document.page_content ++ "\n\n")
        (index + 1) rest

/-- `context_formatting(documents)` from rag_chat_first.py:62-66. -/
def context_formatting (documents : List Document) : String :=
  context_formatting_go "" 0 documents

/-- The accumulating loop of `source_formatting` (rag_chat_first.py:69-73):
for `index, document in enumerate(documents)` append
`"[doc" + str(index+1) + "]=" + metadata.get("source", "unknown") + "\x5cn\x5cn"`
to `sources`. -/
def source_formatting_go (sources : String) (index : Nat) :
    List Document → String
  | [] => sources
  | document :: rest =>
      source_formatting_go
        (sources ++ "[doc" ++ toString (index + 1) ++ "]=" ++
          document.metadata.source.getD "unknown" ++ "\n\n")
        (index + 1) rest

/-- `source_formatting(documents)` from rag_chat_first.py:69-73, including the
final `.strip()`. -/
def source_formatting (documents : List Document) : String :=
  (source_formatting_go "" 0 documents).trim

/-- The citation entries enumerated by `source_formatting`
(rag_chat_first.py:71-72) and by the `formatted_sources` comprehension of
`chat_with_memory` (rag_chat_session.py:87-89): the 1-based key `index + 1`
paired with `metadata.get("source", "unknown")` of the chunk at 0-based
`index`.  This is the Citation Mapping the rendered strings display. -/
def citationMapping (documents : List Document) : List (Nat × String) :=
  documents.enum.map fun p => (p.1 + 1, p.2.metadata.source.getD "unknown")

/-- Rendering of citation entries in the style of `source_formatting`:
each entry becomes `[doc<key>]=<source>` followed by a blank line. -/
def renderedSources : List (Nat × String) → String
  | [] => ""
  | e :: rest => "[doc" ++ toString e.1 ++ "]=" ++ e.2 ++ "\n\n" ++ renderedSources rest

/-- The `formatted_sources` expression of `chat_with_memory`
(rag_chat_session.py:87-89): `"\x5cn\x5cn".join` of
`f"[source{idx+1}] {doc.metadata.get('source', 'unknown')}"`. -/
def formatted_sources (sources : List Document) : String :=
  String.intercalate "\n\n"
    (sources.enum.map fun p =>
      "[source" ++ toString (p.1 + 1) ++ "] " ++ p.2.metadata.source.getD "unknown")

/-- One gradio chat message, as appended by `chat_with_memory`
(rag_chat_session.py:91-92): a role/content dict. -/
structure ChatMessage where
  role : String
  content : String
deriving DecidableEq

/-- `chat_with_memory(user_input, history)` (rag_chat_session.py:82-93).
The external `qa({"question": user_input})` chain call supplies `answer` and
the retrieved `sources`; the handler formats the sources, appends the user
and assistant messages to `history`, and returns
`(history, history, formatted_sources, "")`. -/
def chat_with_memory (user_input : String) (history : List ChatMessage)
    (answer : String) (sources : List Document) :
    List ChatMessage × List ChatMessage × String × String :=
  let fs := formatted_sources sources
  let history2 := history ++ [⟨"user", user_input⟩, ⟨"assistant", answer⟩]
  (history2, history2, fs, "")

/-- The conversation turns encoded in a chat-message history: consecutive
(user content, assistant content) pairs. -/
def turnsOf : List ChatMessage → List (String × String)
  | u :: a :: rest => (u.content, a.content) :: turnsOf rest
  | _ => []

/- ### Helper lemmas on the formatters -/

/-- Keys of an `enumFrom`-style mapping shifted up by one form the
contiguous range starting at `n + 1`. -/
theorem map_fst_add_one_enumFrom {α : Type} (n : Nat) (l : List α) :
    ((l.enumFrom n).map fun p => p.1 + 1) = List.range' (n + 1) l.length := by
  induction l generalizing n with
  | nil => rfl
  | cons a rest ih => simp [List.enumFrom_cons, List.range'_succ, ih]

/-- The citation keys are exactly `1..n`. -/
theorem citationMapping_keys (documents : List Document) :
    (citationMapping documents).map Prod.fst =
      List.range' 1 documents.length := by
  have h := map_fst_add_one_enumFrom 0 documents
  simpa [citationMapping, List.map_map, Function.comp, List.enum_eq_enumFrom]
    using h

/-- Each citation entry pairs the 1-based position with the chunk's source
(defaulted to "unknown"). -/
theorem citationMapping_entry (documents : List Document) (i : Nat) (d : Document)
    (h : documents[i]? = some d) :
    (citationMapping documents)[i]? =
      some (i + 1, d.metadata.source.getD "unknown") := by
  simp [citationMapping, List.enum_eq_enumFrom, List.getElem?_enumFrom, h]

/-- The `source_formatting` loop appends the rendering of the citation
entries enumerated from `index` to the accumulator. -/
theorem source_formatting_go_eq (documents : List Document) :
    ∀ (index : Nat) (acc : String),
      source_formatting_go acc index documents =
        acc ++ renderedSources ((documents.enumFrom index).map
          fun p => (p.1 + 1, p.2.metadata.source.getD "unknown")) := by
  induction documents with
  | nil => intro index acc; simp [source_formatting_go, renderedSources]
  | cons d rest ih =>
      intro index acc
      simp [source_formatting_go, List.enumFrom_cons, renderedSources, ih,
        String.append_assoc]

/-- `source_formatting` renders exactly the citation mapping (then strips). -/
theorem source_formatting_eq_rendered (documents : List Document) :
    source_formatting documents =
      (renderedSources (citationMapping documents)).trim := by
  simp [source_formatting, citationMapping, List.enum_eq_enumFrom,
    source_formatting_go_eq documents 0 ""]

/-- `formatted_sources` renders exactly the citation mapping. -/
theorem formatted_sources_eq_rendered (sources : List Document) :
    formatted_sources sources =
      String.intercalate "\n\n" ((citationMapping sources).map
        fun e => "[source" ++ toString e.1 ++ "] " ++ e.2) := by
  simp [formatted_sources, citationMapping, List.map_map, Function.comp_def]

/-- A concrete chunk used in witnesses and counterexamples. -/
def doc_a : Document := ⟨"alpha", ⟨some "a.txt", none⟩⟩

/- ### Index Store lifecycle -/

/-- The observable outcome of opening a vector store: the collection name,
the persistence directory, and — when the build path ran — the chunks that
were embedded and persisted (`Chroma.from_documents`); `built_from = none`
means the prior index was reopened (`Chroma(...)`) and the supplied chunks
were never touched. -/
structure VectorStore where
  collection_name : String
  persist_directory : String
  built_from : Option (List Document)
deriving DecidableEq

/-- `init_or_load_vectorstore(path, docs, embedding)` (rag_chat_session.py:26-32),
with the `Path(path).exists()` filesystem probe modelled by the oracle
`pathExists`. -/
def init_or_load_vectorstore (pathExists : String → Bool) (path : String)
    (docs : List Document) : VectorStore :=
  if pathExists path then
    { collection_name := "rag_chat", persist_directory := path, built_from := none }
  else
    { collection_name := "rag_chat", persist_directory := path, built_from := some docs }

/-- `create_vector_store(db_directory, chunks, embedding)` (rag_chat_first.py:43-47). -/
def create_vector_store (db_directory : String) (chunks : List Document) : VectorStore :=
  { collection_name := "chromemwah", persist_directory := db_directory,
    built_from := some chunks }

/-- `fetch_vector_store(db_directory, embedding)` (rag_chat_first.py:50-53). -/
def fetch_vector_store (db_directory : String) : VectorStore :=
  { collection_name := "chromemwah", persist_directory := db_directory,
    built_from := none }

/-- The `__main__` dispatch of rag_chat_first.py:103-107:
`if not os.path.isdir(db_directory)` build from the chunked corpus, else
fetch the existing store; `isdir` is the filesystem oracle. -/
def main_store_choice (isdir : String → Bool) (db_directory : String)
    (chunks : List Document) : VectorStore :=
  if !(isdir db_directory) then create_vector_store db_directory chunks
  else fetch_vector_store db_directory

/- ### Chunking and ingestion -/

/-- One external loader call (`PyPDFLoader(...).load()` and friends): either
the loaded documents or the exception the loader raised. -/
abbrev LoadResult : Type := Except String (List Document)

/-- `docs.extend(loader.load())` over a sequence of loader calls, as in the
for-loops of `chunking` (rag_chat_first.py:23-34): the loops carry no
try/except, so a raised exception propagates at once. -/
def extendLoads (docs : List Document) : List LoadResult → Except String (List Document)
  | [] => .ok docs
  | .error e :: _ => .error e
  | .ok loaded :: rest => extendLoads (docs ++ loaded) rest

/-- `chunking(data_directory)` (rag_chat_first.py:19-40): extend `docs` with
every PDF load, then every DOCX load, then the TXT directory load, then run
the splitter on the accumulated documents.  The external
`RecursiveCharacterTextSplitter` is the parameter `split`. -/
def chunking (split : List Document → List Document)
    (pdfLoads docxLoads : List LoadResult) (txtLoad : LoadResult) :
    Except String (List Document) :=
  match extendLoads [] pdfLoads with
  | .error e => .error e
  | .ok docs1 =>
    match extendLoads docs1 docxLoads with
    | .error e => .error e
    | .ok docs2 =>
      match txtLoad with
      | .error e => .error e
      | .ok loaded => .ok (split (docs2 ++ loaded))

/- ### Single-turn generation pipeline -/

/-- The prompt template of `generate` (rag_chat_first.py:78-87) with its two
slots substituted, exactly as `ChatPromptTemplate.from_template` fills them. -/
def rag_prompt (question context : String) : String :=
  "You are an assistant for question-answering tasks. Use the " ++
  "following pieces of retrieved context to answer the question. If " ++
  "you don\x27t know the answer, just say that you don\x27t know. Keep the " ++
  "answer concise, truthful, and informative. If you decide to use a " ++
  "source, you must mention in which document you found specific " ++
  "information. Sources are indicated in the context by " ++
  "[doc<doc_number>].\n" ++
  "Question: " ++ question ++ " \n" ++
  "Context: " ++ context ++ " \n" ++
  "Answer:"

/-- `generate(question, documents, use_llm)` (rag_chat_first.py:76-91): fill
the template and invoke the external model chain, modelled by `llm`. -/
def generate (llm : String → String) (question context : String) : String :=
  llm (rag_prompt question context)

/-- `complete_rag(question)` (rag_chat_first.py:109-112): retrieve, then
return `(source_formatting(docs), generate(question, context_formatting(docs)))`.
The retriever handle is the external function `retrieverFn`. -/
def complete_rag (retrieverFn : String → List Document) (llm : String → String)
    (question : String) : String × String :=
  let docs := retrieverFn question
  (source_formatting docs, generate llm question (context_formatting docs))

/- ### The context-assembly claim, formalised from the spec's words -/

/-- Modelled from the claim's words, for comparison with `context_formatting`:
each chunk's newline-flattened content prefixed with its 1-based positional
tag, the blocks then joined with a blank line as a separator. -/
def claimed_context (documents : List Document) : String :=
  String.intercalate "\n\n"
    (documents.enum.map fun p =>
      "[doc" ++ toString (p.1 + 1) ++ "]=" ++ replaceNewlines p.2.page_content)

/-- The blocks `context_formatting` actually produces: tagged flattened
content, each block terminated (not merely separated) by a blank line. -/
def context_blocks (documents : List Document) : List String :=
  documents.enum.map fun p =>
    "[doc" ++ toString (p.1 + 1) ++ "]=" ++ replaceNewlines p.2.page_content ++ "\n\n"

/-- Concatenation of a list of blocks. -/
def concatBlocks : List String → String
  | [] => ""
  | b :: rest => b ++ concatBlocks rest

/-- The `context_formatting` loop appends the concatenation of the blocks
enumerated from `index` to the accumulator. -/
theorem context_formatting_go_eq (documents : List Document) :
    ∀ (index : Nat) (acc : String),
      context_formatting_go acc index documents =
        acc ++ concatBlocks ((documents.enumFrom index).map
          fun p => "[doc" ++ toString (p.1 + 1) ++ "]=" ++
            replaceNewlines p.2.page_content ++ "\n\n") := by
  induction documents with
  | nil => intro index acc; simp [context_formatting_go, concatBlocks]
  | cons d rest ih =>
      intro index acc
      simp [context_formatting_go, List.enumFrom_cons, concatBlocks, ih,
        String.append_assoc]

/- ### Benchmark harness (run_mpnet_tests.py) -/

/-- One row appended to `results` (run_mpnet_tests.py:89-95).  Field names
transliterate the script's column labels (Embeddingmodell, LLM, Fraga,
Modellens Svar, Svarstid (s)); the latency is a rational number of seconds. -/
structure BenchmarkResult where
  embeddingmodell : String
  llm : String
  fraga : String
  svar : String
  svarstid : ℚ
deriving DecidableEq

/-- The `embedding_model_name` setting (run_mpnet_tests.py:14). -/
def embedding_model_name : String := "sentence-transformers/all-MiniLM-L6-v2"

/-- The `llms_to_test` setting (run_mpnet_tests.py:15). -/
def llms_to_test : List String := ["mistral:instruct", "llama3", "openhermes", "zephyr"]

/-- The `questions` setting (run_mpnet_tests.py:21). -/
def benchmark_question_list : List String :=
  ["How do i make a Rainbow?", "What currency do they have in Canada?"]

/-- `round(x, 2)` applied to the measured latency (run_mpnet_tests.py:88).
(Python rounds halves to even; the two roundings differ only at exact ties,
immaterial to anything proved below.) -/
def round2 (q : ℚ) : ℚ := (round (q * 100) : ℚ) / 100

/-- One external `chain({"question": q})` call for a given model
(run_mpnet_tests.py:86): the answer the chain produces is a function of the
model name, the question and the chat history held in the chain's memory at
call time; a generation failure surfaces as `.error`. -/
abbrev ChainCall : Type := String → String → List ChatMessage → Except String String

/-- The inner benchmark loop (run_mpnet_tests.py:84-95) for one model: time
each call with `time.time()`, thread the chain's `ConversationBufferMemory`
(which records the question and the answer after each call), and append one
result row per question.  There is no try/except, so a raised generation
error propagates.  `clock` maps the i-th `time.time()` call of the run to
its reading; `t` counts the calls made so far. -/
def bench_questions (clock : Nat → ℚ) (call : ChainCall) (llm_name : String) :
    List String → List ChatMessage → List BenchmarkResult → Nat →
    Except String (List BenchmarkResult × List ChatMessage × Nat)
  | [], mem, results, t => .ok (results, mem, t)
  | q :: rest, mem, results, t =>
    match call llm_name q mem with
    | .error e => .error e
    | .ok answer =>
      bench_questions clock call llm_name rest
        (mem ++ [⟨"human", q⟩, ⟨"ai", answer⟩])
        (results ++ [⟨embedding_model_name, llm_name, q, answer,
          round2 (clock (t + 1) - clock t)⟩])
        (t + 2)

/-- The outer benchmark loop (run_mpnet_tests.py:79-95): for each model,
`build_chain` constructs a fresh chain around a fresh
`ConversationBufferMemory` (run_mpnet_tests.py:54), then every question is
asked through that chain. -/
def bench_models (clock : Nat → ℚ) (call : ChainCall) (questions : List String) :
    List String → List BenchmarkResult → Nat → Except String (List BenchmarkResult)
  | [], results, _ => .ok results
  | llm_name :: rest, results, t =>
    match bench_questions clock call llm_name questions [] results t with
    | .error e => .error e
    | .ok (results2, _, t2) => bench_models clock call questions rest results2 t2

/-- The whole sweep of run_mpnet_tests.py:77-99: run every (model, question)
cell in order and, on success, hand the accumulated rows to `df.to_excel`;
an uncaught error aborts the script before anything is written, so `.error`
means the output file is never produced. -/
def run_mpnet_tests (clock : Nat → ℚ) (call : ChainCall)
    (models questions : List String) : Except String (List BenchmarkResult) :=
  bench_models clock call questions models [] 0

/-- A chain call that never fails: every generation returns
`answer model question history`. -/
def okCall (answer : String → String → List ChatMessage → String) : ChainCall :=
  fun m q mem => .ok (answer m q mem)

/-- The chain memory after asking `qs` in order starting from `mem`: each
question appends the (human, ai) message pair produced from the memory as it
stood when that question was asked. -/
def memAfter (answer : String → String → List ChatMessage → String) (m : String) :
    List String → List ChatMessage → List ChatMessage
  | [], mem => mem
  | q :: rest, mem =>
      memAfter answer m rest (mem ++ [⟨"human", q⟩, ⟨"ai", answer m q mem⟩])

/-- The rows the inner loop produces for one model under `okCall answer`,
asking `qs` with chain memory `mem` and `time.time()` counter `t`. -/
def rowsFor (clock : Nat → ℚ) (answer : String → String → List ChatMessage → String)
    (m : String) : List String → List ChatMessage → Nat → List BenchmarkResult
  | [], _, _ => []
  | q :: rest, mem, t =>
      ⟨embedding_model_name, m, q, answer m q mem,
        round2 (clock (t + 1) - clock t)⟩ ::
        rowsFor clock answer m rest
          (mem ++ [⟨"human", q⟩, ⟨"ai", answer m q mem⟩]) (t + 2)

/-- All rows of a sweep under `okCall answer`, starting at counter `t`:
fresh memory per model, two clock reads per cell. -/
def allRows (clock : Nat → ℚ) (answer : String → String → List ChatMessage → String)
    (questions : List String) : List String → Nat → List BenchmarkResult
  | [], _ => []
  | m :: rest, t =>
      rowsFor clock answer m questions [] t ++
        allRows clock answer questions rest (t + 2 * questions.length)

/-- Closed form of the inner loop when no call fails. -/
theorem bench_questions_ok (clock : Nat → ℚ)
    (answer : String → String → List ChatMessage → String) (m : String) :
    ∀ (qs : List String) (mem : List ChatMessage)
      (results : List BenchmarkResult) (t : Nat),
      bench_questions clock (okCall answer) m qs mem results t =
        .ok (results ++ rowsFor clock answer m qs mem t,
          memAfter answer m qs mem, t + 2 * qs.length) := by
  intro qs
  induction qs with
  | nil => intro mem results t; simp [bench_questions, rowsFor, memAfter]
  | cons q rest ih =>
      intro mem results t
      simp only [bench_questions, okCall, rowsFor, memAfter, ih, List.append_assoc,
        List.singleton_append, List.length_cons, Except.ok.injEq, Prod.mk.injEq]
      refine ⟨trivial, trivial, by omega⟩

/-- Closed form of the outer loop when no call fails. -/
theorem bench_models_ok (clock : Nat → ℚ)
    (answer : String → String → List ChatMessage → String) (qs : List String) :
    ∀ (models : List String) (results : List BenchmarkResult) (t : Nat),
      bench_models clock (okCall answer) qs models results t =
        .ok (results ++ allRows clock answer qs models t) := by
  intro models
  induction models with
  | nil => intro results t; simp [bench_models, allRows]
  | cons m rest ih =>
      intro results t
      simp [bench_models, bench_questions_ok, allRows, ih]

/-- Rounding to two decimals keeps a nonnegative latency nonnegative. -/
theorem round2_nonneg (q : ℚ) (h : 0 ≤ q) : 0 ≤ round2 q := by
  unfold round2
  apply div_nonneg _ (by norm_num)
  have h100 : (0 : ℚ) ≤ q * 100 := by positivity
  have : (0 : ℤ) ≤ round (q * 100) := by
    rw [round_eq]
    exact Int.floor_nonneg.2 (by linarith)
  exact_mod_cast this

/-- The inner loop yields one row per question. -/
theorem rowsFor_length (clock : Nat → ℚ)
    (answer : String → String → List ChatMessage → String) (m : String) :
    ∀ (qs : List String) (mem : List ChatMessage) (t : Nat),
      (rowsFor clock answer m qs mem t).length = qs.length := by
  intro qs
  induction qs with
  | nil => intro mem t; rfl
  | cons q rest ih => intro mem t; simp [rowsFor, ih]

/-- The (model, question) projection of the inner loop's rows. -/
theorem rowsFor_proj (clock : Nat → ℚ)
    (answer : String → String → List ChatMessage → String) (m : String) :
    ∀ (qs : List String) (mem : List ChatMessage) (t : Nat),
      (rowsFor clock answer m qs mem t).map (fun r => (r.llm, r.fraga)) =
        qs.map fun q => (m, q) := by
  intro qs
  induction qs with
  | nil => intro mem t; rfl
  | cons q rest ih => intro mem t; simp [rowsFor, ih]

/-- Under a monotone clock, every row of the inner loop has a nonnegative
latency. -/
theorem rowsFor_latency_nonneg (clock : Nat → ℚ)
    (hmono : ∀ n, clock n ≤ clock (n + 1))
    (answer : String → String → List ChatMessage → String) (m : String) :
    ∀ (qs : List String) (mem : List ChatMessage) (t : Nat)
      (r : BenchmarkResult), r ∈ rowsFor clock answer m qs mem t →
        0 ≤ r.svarstid := by
  intro qs
  induction qs with
  | nil => intro mem t r hr; simp [rowsFor] at hr
  | cons q rest ih =>
      intro mem t r hr
      simp only [rowsFor, List.mem_cons] at hr
      rcases hr with hr | hr
      · subst hr
        exact round2_nonneg _ (by linarith [hmono t])
      · exact ih _ _ _ hr

/-- The sweep yields one row per (model, question) cell. -/
theorem allRows_length (clock : Nat → ℚ)
    (answer : String → String → List ChatMessage → String) (qs : List String) :
    ∀ (models : List String) (t : Nat),
      (allRows clock answer qs models t).length = models.length * qs.length := by
  intro models
  induction models with
  | nil => intro t; simp [allRows]
  | cons m rest ih =>
      intro t
      simp [allRows, rowsFor_length, ih, Nat.succ_mul, Nat.add_comm]

/-- The (model, question) projection of the whole sweep, model-major and
question-minor. -/
theorem allRows_proj (clock : Nat → ℚ)
    (answer : String → String → List ChatMessage → String) (qs : List String) :
    ∀ (models : List String) (t : Nat),
      (allRows clock answer qs models t).map (fun r => (r.llm, r.fraga)) =
        models.flatMap fun m => qs.map fun q => (m, q) := by
  intro models
  induction models with
  | nil => intro t; simp [allRows]
  | cons m rest ih => intro t; simp [allRows, rowsFor_proj, ih]

/-- Under a monotone clock, every row of the whole sweep has a nonnegative
latency. -/
theorem allRows_latency_nonneg (clock : Nat → ℚ)
    (hmono : ∀ n, clock n ≤ clock (n + 1))
    (answer : String → String → List ChatMessage → String) (qs : List String) :
    ∀ (models : List String) (t : Nat) (r : BenchmarkResult),
      r ∈ allRows clock answer qs models t → 0 ≤ r.svarstid := by
  intro models
  induction models with
  | nil => intro t r hr; simp [allRows] at hr
  | cons m rest ih =>
      intro t r hr
      simp only [allRows, List.mem_append] at hr
      rcases hr with hr | hr
      · exact rowsFor_latency_nonneg clock hmono answer m _ _ _ _ hr
      · exact ih _ _ hr

/-- The row the inner loop records for the question at 0-based position `qi`:
its answer was generated from the chain memory built by this model's earlier
questions only. -/
theorem rowsFor_getElem (clock : Nat → ℚ)
    (answer : String → String → List ChatMessage → String) (m : String) :
    ∀ (qs : List String) (qi : Nat) (mem : List ChatMessage) (t : Nat)
      (hq : qi < qs.length),
      (rowsFor clock answer m qs mem t)[qi]? =
        some ⟨embedding_model_name, m, qs[qi],
          answer m qs[qi] (memAfter answer m (qs.take qi) mem),
          round2 (clock (t + 2 * qi + 1) - clock (t + 2 * qi))⟩ := by
  intro qs
  induction qs with
  | nil => intro qi mem t hq; simp at hq
  | cons q rest ih =>
      intro qi mem t hq
      match qi with
      | 0 => simp [rowsFor, memAfter]
      | qi' + 1 =>
          have hq' : qi' < rest.length := by simpa using hq
          have := ih qi' (mem ++ [⟨"human", q⟩, ⟨"ai", answer m q mem⟩]) (t + 2) hq'
          simp only [rowsFor, List.getElem?_cons_succ, this, List.getElem_cons_succ,
            List.take_succ_cons, memAfter]
          have harith : t + 2 + 2 * qi' = t + 2 * (qi' + 1) := by omega
          rw [harith]

/-- The row the sweep records at flat position `mi * Q + qi`: the cell of
model `mi` and question `qi`, timed at clock reads `2 * (mi * Q + qi)` and
answered from a chain memory rebuilt from scratch for model `mi` out of its
own earlier questions only. -/
theorem allRows_getElem (clock : Nat → ℚ)
    (answer : String → String → List ChatMessage → String) (qs : List String) :
    ∀ (models : List String) (mi qi t : Nat) (hm : mi < models.length)
      (hq : qi < qs.length),
      (allRows clock answer qs models t)[mi * qs.length + qi]? =
        some ⟨embedding_model_name, models.get ⟨mi, hm⟩, qs.get ⟨qi, hq⟩,
          answer (models.get ⟨mi, hm⟩) (qs.get ⟨qi, hq⟩)
            (memAfter answer (models.get ⟨mi, hm⟩) (qs.take qi) []),
          round2 (clock (t + 2 * (mi * qs.length + qi) + 1) -
            clock (t + 2 * (mi * qs.length + qi)))⟩ := by
  intro models
  induction models with
  | nil => intro mi qi t hm hq; simp at hm
  | cons m rest ih =>
      intro mi qi t hm hq
      match mi with
      | 0 =>
          have hlt : 0 * qs.length + qi < (rowsFor clock answer m qs [] t).length := by
            rw [rowsFor_length]; omega
          rw [allRows, List.getElem?_append_left hlt]
          have := rowsFor_getElem clock answer m qs qi [] t hq
          simp only [Nat.zero_mul, Nat.zero_add] at hlt ⊢
          rw [this]
          simp [List.get_eq_getElem]
      | mi' + 1 =>
          have hm' : mi' < rest.length := by simpa using hm
          have hsucc : (mi' + 1) * qs.length = mi' * qs.length + qs.length :=
            Nat.succ_mul mi' qs.length
          have hge : (rowsFor clock answer m qs [] t).length ≤
              (mi' + 1) * qs.length + qi := by
            rw [rowsFor_length, hsucc]; omega
          rw [allRows, List.getElem?_append_right hge]
          have hidx : (mi' + 1) * qs.length + qi -
              (rowsFor clock answer m qs [] t).length = mi' * qs.length + qi := by
            rw [rowsFor_length, hsucc]; omega
          rw [hidx, ih mi' qi (t + 2 * qs.length) hm' hq]
          have harith : t + 2 * qs.length + 2 * (mi' * qs.length + qi) =
              t + 2 * ((mi' + 1) * qs.length + qi) := by ring
          rw [harith]
          simp [List.get_eq_getElem]

/-- Concatenating chat histories splits the decoded turns when the first part
holds complete (user, assistant) pairs. -/
theorem turnsOf_append : ∀ (h l : List ChatMessage), h.length % 2 = 0 →
    turnsOf (h ++ l) = turnsOf h ++ turnsOf l
  | [], _, _ => by simp [turnsOf]
  | [_], _, hev => by simp at hev
  | x :: y :: t, l, hev => by
      have ht : t.length % 2 = 0 := by
        simp only [List.length_cons] at hev
        omega
      simp [turnsOf, List.cons_append, turnsOf_append t l ht]

/-- A second concrete chunk, with a distinct source, for concrete runs. -/
def doc_good : Document := ⟨"good pdf content", ⟨some "good.pdf", none⟩⟩

/- ### The claims -/

/-- C1: for a Retrieved Set of length n, the citation mapping rendered by
`source_formatting` and by `chat_with_memory` has exactly n entries, its keys
are the gapless 1-based range 1..n, and entry N carries the source field of
the (N-1)-th retrieved chunk's metadata, or "unknown" when that field is
absent. -/
theorem citation_mapping_complete (documents : List Document) :
    source_formatting documents =
      (renderedSources (citationMapping documents)).trim ∧
    formatted_sources documents =
      String.intercalate "\n\n" ((citationMapping documents).map
        fun e => "[source" ++ toString e.1 ++ "] " ++ e.2) ∧
    (citationMapping documents).length = documents.length ∧
    (citationMapping documents).map Prod.fst = List.range' 1 documents.length ∧
    ∀ (i : Nat) (d : Document), documents[i]? = some d →
      (citationMapping documents)[i]? =
        some (i + 1, d.metadata.source.getD "unknown") :=
  ⟨source_formatting_eq_rendered documents,
   formatted_sources_eq_rendered documents,
   by simp [citationMapping],
   citationMapping_keys documents,
   fun i d h => citationMapping_entry documents i d h⟩

/-- Witness for C1 at a concrete one-chunk retrieved set. -/
theorem citation_mapping_complete_instance :
    (citationMapping [doc_a])[0]? = some (0 + 1, "a.txt") :=
  (citation_mapping_complete [doc_a]).2.2.2.2 0 doc_a rfl

/-- C2: the citation numbering a session turn displays is computed from that
turn's retrieved chunks alone — any prior history, user input or answer
yields the same formatted sources — and the keys restart at 1 on every
invocation. -/
theorem citation_numbering_per_turn (sources : List Document) :
    (∀ (u₁ u₂ a₁ a₂ : String) (h₁ h₂ : List ChatMessage),
      (chat_with_memory u₁ h₁ a₁ sources).2.2.1 =
        (chat_with_memory u₂ h₂ a₂ sources).2.2.1) ∧
    (citationMapping sources).map Prod.fst = List.range' 1 sources.length ∧
    (sources ≠ [] →
      ((citationMapping sources).map Prod.fst).head? = some 1) := by
  refine ⟨fun _ _ _ _ _ _ => rfl, citationMapping_keys sources, fun hne => ?_⟩
  rw [citationMapping_keys]
  cases sources with
  | nil => exact absurd rfl hne
  | cons d rest => simp [List.range'_succ]

/-- Witness for C2 at a concrete one-chunk retrieved set. -/
theorem citation_numbering_per_turn_instance :
    ((citationMapping [doc_a]).map Prod.fst).head? = some 1 :=
  (citation_numbering_per_turn [doc_a]).2.2 (by simp)

/-- C3: the store-opening calls take the load path (ignoring the supplied
chunks) iff the persisted path exists, and the build path embeds exactly the
supplied chunks; the filesystem probe is the sole signal. -/
theorem open_or_build_signal (pathExists isdir : String → Bool)
    (path db : String) (docs chunks : List Document) :
    ((init_or_load_vectorstore pathExists path docs).built_from = none ↔
      pathExists path = true) ∧
    (pathExists path = true → ∀ docs2 : List Document,
      init_or_load_vectorstore pathExists path docs =
        init_or_load_vectorstore pathExists path docs2) ∧
    (pathExists path = false →
      (init_or_load_vectorstore pathExists path docs).built_from = some docs) ∧
    ((main_store_choice isdir db chunks).built_from = none ↔ isdir db = true) ∧
    (isdir db = false →
      main_store_choice isdir db chunks = create_vector_store db chunks) := by
  cases hpe : pathExists path <;> cases hid : isdir db <;>
    simp [init_or_load_vectorstore, main_store_choice, create_vector_store,
      fetch_vector_store, hpe, hid]

/-- Witness for C3: on an existing path the opened store is the same whatever
chunks are passed. -/
theorem open_or_build_signal_instance :
    init_or_load_vectorstore (fun _ => true) "chroma_db" [doc_a] =
      init_or_load_vectorstore (fun _ => true) "chroma_db" [] :=
  (open_or_build_signal (fun _ => true) (fun _ => true) "chroma_db" "db"
    [doc_a] []).2.1 rfl []

/-- C4, counterexample: with one retrieved chunk the assembled context ends in
a trailing blank line, so it is not the blocks merely separated by blank
lines that the claim describes. -/
theorem context_separator_counterexample :
    context_formatting [doc_a] ≠ claimed_context [doc_a] := by decide

/-- C4, amended: the assembled context is the concatenation of the retrieved
chunks' blocks, each chunk's newline-flattened content prefixed with its
1-based `[docN]=` tag and followed by a blank line — the last block
included, leaving a trailing blank line. -/
theorem context_blocks_terminated (documents : List Document) :
    context_formatting documents = concatBlocks (context_blocks documents) := by
  simp [context_formatting, context_blocks, List.enum_eq_enumFrom,
    context_formatting_go_eq documents 0 ""]

/-- C5: the code contradicts the claim — `chunking` carries no exception
handling, so when the second PDF loader raises after the first PDF loaded
fine, the whole call returns the loader error instead of the surviving
documents' chunks. -/
theorem chunking_error_aborts :
    chunking id [Except.ok [doc_good], Except.error "unreadable pdf"] []
        (Except.ok []) =
      Except.error "unreadable pdf" := rfl

/-- The chain call of a sweep in which the second model's backend is down:
every call for `llama3` raises, every other call answers. -/
def failing_call : ChainCall :=
  fun m _ _ =>
    if m = "llama3" then Except.error "ollama unavailable" else Except.ok "answer"

/-- C6: the code contradicts the claim — the benchmark loop carries no
exception handling, so one failed generation call (second model of the
configured sweep, first question) aborts the whole run with the raised
error, and the completed first-model cells are never emitted. -/
theorem benchmark_error_aborts_sweep :
    run_mpnet_tests (fun _ => 0) failing_call llms_to_test
        benchmark_question_list =
      Except.error "ollama unavailable" := rfl

/-- C7: one `ask` call appends exactly one (user, assistant) turn to the
session history and leaves every existing message — hence every existing
turn — unchanged. -/
theorem session_appends_one_turn (user_input : String)
    (history : List ChatMessage) (answer : String) (sources : List Document)
    (heven : history.length % 2 = 0) :
    (chat_with_memory user_input history answer sources).1 =
      history ++ [⟨"user", user_input⟩, ⟨"assistant", answer⟩] ∧
    turnsOf (chat_with_memory user_input history answer sources).1 =
      turnsOf history ++ [(user_input, answer)] := by
  refine ⟨rfl, ?_⟩
  have h1 : (chat_with_memory user_input history answer sources).1 =
      history ++ [⟨"user", user_input⟩, ⟨"assistant", answer⟩] := rfl
  rw [h1, turnsOf_append history _ heven]
  rfl

/-- Witness for C7 on the empty session. -/
theorem session_appends_one_turn_instance :
    (chat_with_memory "hi" [] "ok" []).1 =
      ([] : List ChatMessage) ++ [⟨"user", "hi"⟩, ⟨"assistant", "ok"⟩] ∧
    turnsOf (chat_with_memory "hi" [] "ok" []).1 =
      turnsOf [] ++ [("hi", "ok")] :=
  session_appends_one_turn "hi" [] "ok" [] rfl

/-- C8: with every generation call succeeding and a monotone wall clock, a
sweep over M models and Q questions returns exactly M×Q rows, ordered
model-major and question-minor, each with a nonnegative latency. -/
theorem benchmark_shape (clock : Nat → ℚ)
    (hmono : ∀ n, clock n ≤ clock (n + 1))
    (answer : String → String → List ChatMessage → String)
    (models questions : List String) :
    ∃ rs : List BenchmarkResult,
      run_mpnet_tests clock (okCall answer) models questions = Except.ok rs ∧
      rs.length = models.length * questions.length ∧
      rs.map (fun r => (r.llm, r.fraga)) =
        models.flatMap (fun m => questions.map fun q => (m, q)) ∧
      ∀ r ∈ rs, 0 ≤ r.svarstid := by
  refine ⟨allRows clock answer questions models 0, ?_, ?_, ?_, ?_⟩
  · simpa [run_mpnet_tests] using bench_models_ok clock answer questions models [] 0
  · exact allRows_length clock answer questions models 0
  · exact allRows_proj clock answer questions models 0
  · exact fun r hr =>
      allRows_latency_nonneg clock hmono answer questions models 0 r hr

/-- Witness for C8 on the configured sweep with an always-answering backend
and the identity clock. -/
theorem benchmark_shape_instance :
    ∃ rs : List BenchmarkResult,
      run_mpnet_tests (fun n => (n : ℚ)) (okCall fun _ _ _ => "answer")
        llms_to_test benchmark_question_list = Except.ok rs ∧
      rs.length = llms_to_test.length * benchmark_question_list.length ∧
      rs.map (fun r => (r.llm, r.fraga)) =
        llms_to_test.flatMap
          (fun m => benchmark_question_list.map fun q => (m, q)) ∧
      ∀ r ∈ rs, 0 ≤ r.svarstid :=
  benchmark_shape (fun n => (n : ℚ))
    (fun n => by
      show ((n : ℚ) ≤ ((n + 1 : Nat) : ℚ))
      exact_mod_cast Nat.le_succ n)
    (fun _ _ _ => "answer") llms_to_test benchmark_question_list

/-- C9: when retrieval returns nothing the pipeline still completes — the
assembled context and the citation mapping are empty, and the generation
client is still invoked on the question with that empty context. -/
theorem empty_retrieval_still_generates (retrieverFn : String → List Document)
    (llm : String → String) (question : String)
    (hempty : retrieverFn question = []) :
    context_formatting (retrieverFn question) = "" ∧
    citationMapping (retrieverFn question) = [] ∧
    (complete_rag retrieverFn llm question).2 = llm (rag_prompt question "") := by
  rw [hempty]
  exact ⟨rfl, rfl, by
    simp [complete_rag, hempty, generate, context_formatting, context_formatting_go]⟩

/-- Witness for C9 on an empty index store. -/
theorem empty_retrieval_still_generates_instance :
    context_formatting ((fun _ => ([] : List Document)) "anything") = "" ∧
    citationMapping ((fun _ => ([] : List Document)) "anything") = [] ∧
    (complete_rag (fun _ => []) (fun p => p) "anything").2 =
      (fun p : String => p) (rag_prompt "anything" "") :=
  empty_retrieval_still_generates (fun _ => []) (fun p => p) "anything" rfl

/-- C10: under an always-answering backend, the row the sweep records for
model `mi` and question `qi` sits at flat position `mi * Q + qi` and its
answer was generated from the chain memory built from that same model's
earlier questions only, starting empty for every model — so history never
carries over from one model to the next. -/
theorem benchmark_memory_per_model (clock : Nat → ℚ)
    (answer : String → String → List ChatMessage → String)
    (models questions : List String) (mi qi : Nat)
    (hm : mi < models.length) (hq : qi < questions.length) :
    ∃ rs : List BenchmarkResult,
      run_mpnet_tests clock (okCall answer) models questions = Except.ok rs ∧
      rs[mi * questions.length + qi]? =
        some ⟨embedding_model_name, models.get ⟨mi, hm⟩, questions.get ⟨qi, hq⟩,
          answer (models.get ⟨mi, hm⟩) (questions.get ⟨qi, hq⟩)
            (memAfter answer (models.get ⟨mi, hm⟩) (questions.take qi) []),
          round2 (clock (2 * (mi * questions.length + qi) + 1) -
            clock (2 * (mi * questions.length + qi)))⟩ := by
  refine ⟨allRows clock answer questions models 0, ?_, ?_⟩
  · simpa [run_mpnet_tests] using bench_models_ok clock answer questions models [] 0
  · simpa using allRows_getElem clock answer questions models mi qi 0 hm hq

/-- Witness for C10: second model of a two-model sweep, first question. -/
theorem benchmark_memory_per_model_instance :
    ∃ rs : List BenchmarkResult,
      run_mpnet_tests (fun _ => 0) (okCall fun _ _ _ => "a") ["m1", "m2"]
          ["q1"] = Except.ok rs ∧
      rs[1 * (["q1"] : List String).length + 0]? =
        some ⟨embedding_model_name, (["m1", "m2"] : List String).get ⟨1, by simp⟩,
          (["q1"] : List String).get ⟨0, by simp⟩,
          (fun _ _ _ => "a") ((["m1", "m2"] : List String).get ⟨1, by simp⟩)
            ((["q1"] : List String).get ⟨0, by simp⟩)
            (memAfter (fun _ _ _ => "a")
              ((["m1", "m2"] : List String).get ⟨1, by simp⟩)
              ((["q1"] : List String).take 0) []),
          round2 ((fun _ => (0 : ℚ)) (2 * (1 * (["q1"] : List String).length + 0) + 1) -
            (fun _ => (0 : ℚ)) (2 * (1 * (["q1"] : List String).length + 0)))⟩ :=
  benchmark_memory_per_model (fun _ => 0) (fun _ _ _ => "a") ["m1", "m2"]
    ["q1"] 1 0 (by simp) (by simp)

end ThesisRAG
